import Mathlib

/-!
Verification of the rust-rdftk core specification against a shallow embedding
of the repository's code: the literal model (`rdftk_core/src/literal.rs`), the
resource builder and its flattening (`rdftk_core/src/resource.rs`), the
N-Triples decoder (`rdftk_io/src/nt/parser/mod.rs`) and the Turtle writer
(`rdftk_io/src/turtle/writer.rs`).

Rust strings are modelled as Lean `String`, `Option` as `Option`, `Result` as
`Except`, and a `&mut Vec` out-parameter that is only pushed to is modelled by
returning the emitted suffix.
-/

namespace RdfTk

/-- IRI references are compared and hashed by their normalized string form
(spec section 3); we model an IRI reference by that string form. -/
abbrev IRIRef := String

/-- The left-brace character, used when rendering Rust `\u{...}` escapes. -/
def lbrace : Char := Char.ofNat 123

/-- The right-brace character, used when rendering Rust `\u{...}` escapes. -/
def rbrace : Char := Char.ofNat 125

namespace xsd

/-- The XML Schema datatype namespace. The concrete IRI strings appear in the
unit tests of `rdftk_core/src/literal.rs`. -/
def ns : String := "http://www.w3.org/2001/XMLSchema#"

def string : IRIRef := ns ++ "string"

def q_name : IRIRef := ns ++ "qname"

def any_uri : IRIRef := ns ++ "anyURI"

def boolean : IRIRef := ns ++ "boolean"

def float : IRIRef := ns ++ "float"

def double : IRIRef := ns ++ "double"

def long : IRIRef := ns ++ "long"

def int : IRIRef := ns ++ "int"

def short : IRIRef := ns ++ "short"

def byte : IRIRef := ns ++ "byte"

def unsigned_long : IRIRef := ns ++ "unsignedLong"

def unsigned_int : IRIRef := ns ++ "unsignedInt"

def unsigned_short : IRIRef := ns ++ "unsignedShort"

def unsigned_byte : IRIRef := ns ++ "unsignedByte"

def duration : IRIRef := ns ++ "duration"

end xsd

/-- `DataType` from `rdftk_core/src/literal.rs`: the closed set of built-in
scalar kinds plus the open `Other(IRI)` escape. -/
inductive DataType where
  | String
  | QName
  | IRI
  | Boolean
  | Float
  | Double
  | Long
  | Int
  | Short
  | Byte
  | UnsignedLong
  | UnsignedInt
  | UnsignedShort
  | UnsignedByte
  | Duration
  | Other (iri : IRIRef)
deriving DecidableEq, Repr

/-- `DataType::as_iri` from `rdftk_core/src/literal.rs`. -/
def DataType.as_iri : DataType → IRIRef
  | .String => xsd.string
  | .QName => xsd.q_name
  | .IRI => xsd.any_uri
  | .Boolean => xsd.boolean
  | .Float => xsd.float
  | .Double => xsd.double
  | .Long => xsd.long
  | .Int => xsd.int
  | .Short => xsd.short
  | .Byte => xsd.byte
  | .UnsignedLong => xsd.unsigned_long
  | .UnsignedInt => xsd.unsigned_int
  | .UnsignedShort => xsd.unsigned_short
  | .UnsignedByte => xsd.unsigned_byte
  | .Duration => xsd.duration
  | .Other iri => iri

/-- `Literal` from `rdftk_core/src/literal.rs`: a lexical form with an optional
data type and an optional language tag. Equality is structural over the three
fields, as with the derived `PartialEq`. -/
structure Literal where
  lexical_form : String
  data_type : Option DataType
  language : Option String
deriving DecidableEq, Repr

/-- Modelled from the Rust standard library (external to this repository):
the printability classification used by `char::escape_debug`. ASCII graphic
characters (0x20 to 0x7E) are printable; ASCII and C1 control characters
(below 0x20, and 0x7F to 0x9F) are not. Characters from 0xA0 up are treated
as printable here; the exact Unicode table only affects which non-ASCII
characters are emitted escaped, not any property proved below. -/
def isDebugPrintable (c : Char) : Bool :=
  (0x20 ≤ c.toNat && c.toNat ≤ 0x7E) || 0xA0 ≤ c.toNat

/-- One lowercase hexadecimal digit character. -/
def hexDigitChar (n : Nat) : Char :=
  if n < 10 then Char.ofNat ('0'.toNat + n) else Char.ofNat ('a'.toNat + (n - 10))

/-- Little-endian hexadecimal digits of a natural number (least significant
first); the digit list of 0 is `[0]`. -/
def toHexLE (n : Nat) : List Nat :=
  if h : n < 16 then [n]
  else (n % 16) :: toHexLE (n / 16)
decreasing_by exact Nat.div_lt_self (Nat.lt_of_lt_of_le (by norm_num) (Nat.le_of_not_lt h)) (by norm_num)

/-- Big-endian lowercase hexadecimal rendering of a natural number, as used by
Rust's `\u{...}` escape (no padding, lowercase). -/
def hexRender (n : Nat) : List Char :=
  ((toHexLE n).map hexDigitChar).reverse

/-- Modelled from the Rust standard library (external to this repository):
`char::escape_debug` as applied per character by the `Debug` implementation
for `str` (double quotes escaped, single quotes not). -/
def escapeDebugChar (c : Char) : List Char :=
  if c = Char.ofNat 0 then ['\\', '0']
  else if c = '\t' then ['\\', 't']
  else if c = '\r' then ['\\', 'r']
  else if c = '\n' then ['\\', 'n']
  else if c = '\\' then ['\\', '\\']
  else if c = '"' then ['\\', '"']
  else if isDebugPrintable c then [c]
  else '\\' :: 'u' :: lbrace :: (hexRender c.toNat ++ [rbrace])

/-- Modelled from the Rust standard library (external to this repository):
`format!("{:?}", value)` for a `&str` value, i.e. the `Debug` rendering: a
double quote, each character escaped by `escapeDebugChar`, a double quote. -/
def formatDebug (value : String) : String :=
  "\"" ++ String.mk (value.data.flatMap escapeDebugChar) ++ "\""

/-- `Literal::escape_string` from `rdftk_core/src/literal.rs`: format the
string with `Debug` and strip the first and last character (the surrounding
quotes that `Debug` adds). -/
def Literal.escape_string (value : String) : String :=
  let formatted := formatDebug value
  String.mk ((formatted.data.drop 1).dropLast)

/-- `Literal::new` from `rdftk_core/src/literal.rs`. -/
def Literal.new (value : String) : Literal :=
  { lexical_form := Literal.escape_string value, data_type := none, language := none }

/-- `Literal::with_type` from `rdftk_core/src/literal.rs`. -/
def Literal.with_type (value : String) (data_type : DataType) : Literal :=
  { lexical_form := Literal.escape_string value, data_type := some data_type, language := none }

/-- `Literal::with_language` from `rdftk_core/src/literal.rs`: the language
tag is stored exactly as supplied. -/
def Literal.with_language (value : String) (language : String) : Literal :=
  { lexical_form := Literal.escape_string value, data_type := none, language := some language }

/-- `From<String> for Literal` (and `From<&str>`, which is textually the
same construction) from `rdftk_core/src/literal.rs`. -/
def Literal.fromString (value : String) : Literal :=
  { lexical_form := Literal.escape_string value, data_type := some .String, language := none }

/-- `From<IRIRef> for Literal` from `rdftk_core/src/literal.rs`; the lexical
form is the IRI's string form. -/
def Literal.fromIRI (value : IRIRef) : Literal :=
  { lexical_form := value, data_type := some .IRI, language := none }

/-- `From<QName> for Literal` from `rdftk_core/src/literal.rs`; a `QName`
(defined outside src/) is modelled by its rendered string form. -/
def Literal.fromQName (rendered : String) : Literal :=
  { lexical_form := rendered, data_type := some .QName, language := none }

/-- `From<bool> for Literal` from `rdftk_core/src/literal.rs`. -/
def Literal.fromBool (value : Bool) : Literal :=
  { lexical_form := if value then "true" else "false",
    data_type := some .Boolean, language := none }

/-- `From<f32> for Literal` from `rdftk_core/src/literal.rs`. Floating-point
display rendering is external to the claims checked here, so the conversion
is modelled over the rendered decimal string. -/
def Literal.fromF32 (rendered : String) : Literal :=
  { lexical_form := rendered, data_type := some .Float, language := none }

/-- `From<f64> for Literal` from `rdftk_core/src/literal.rs`; see
`Literal.fromF32` for the treatment of the rendered value. -/
def Literal.fromF64 (rendered : String) : Literal :=
  { lexical_form := rendered, data_type := some .Double, language := none }

/-- `From<i64> for Literal` from `rdftk_core/src/literal.rs`. -/
def Literal.fromI64 (value : Int) : Literal :=
  { lexical_form := toString value, data_type := some .Long, language := none }

/-- `From<i32> for Literal` from `rdftk_core/src/literal.rs`. -/
def Literal.fromI32 (value : Int) : Literal :=
  { lexical_form := toString value, data_type := some .Int, language := none }

/-- `From<i16> for Literal` from `rdftk_core/src/literal.rs`. -/
def Literal.fromI16 (value : Int) : Literal :=
  { lexical_form := toString value, data_type := some .Short, language := none }

/-- `From<i8> for Literal` from `rdftk_core/src/literal.rs`. -/
def Literal.fromI8 (value : Int) : Literal :=
  { lexical_form := toString value, data_type := some .Byte, language := none }

/-- `From<u64> for Literal` from `rdftk_core/src/literal.rs`. -/
def Literal.fromU64 (value : Nat) : Literal :=
  { lexical_form := toString value, data_type := some .UnsignedLong, language := none }

/-- `From<u32> for Literal` from `rdftk_core/src/literal.rs`. -/
def Literal.fromU32 (value : Nat) : Literal :=
  { lexical_form := toString value, data_type := some .UnsignedInt, language := none }

/-- `From<u16> for Literal` from `rdftk_core/src/literal.rs`. -/
def Literal.fromU16 (value : Nat) : Literal :=
  { lexical_form := toString value, data_type := some .UnsignedShort, language := none }

/-- `From<u8> for Literal` from `rdftk_core/src/literal.rs`. -/
def Literal.fromU8 (value : Nat) : Literal :=
  { lexical_form := toString value, data_type := some .UnsignedByte, language := none }

/-- Zero-pad a decimal rendering to width 9, as Rust's `{:09}` does for the
nanosecond field. -/
def padNanos (nanos : Nat) : String :=
  let s := toString nanos
  String.mk (List.replicate (9 - s.length) '0') ++ s

/-- `From<Duration> for Literal` from `rdftk_core/src/literal.rs`: the
canonical pattern `T<seconds>.<9-digit-nanoseconds>S`. -/
def Literal.fromDuration (secs : Nat) (subsecNanos : Nat) : Literal :=
  { lexical_form := "T" ++ toString secs ++ "." ++ padNanos subsecNanos ++ "S",
    data_type := some .Duration, language := none }

/-- Modelled from the Rust standard library (external to this repository):
`String::to_lowercase`, per-character lowercasing; `Char.toLower` agrees with
it on the ASCII range occupied by language tags. -/
def strToLower (s : String) : String :=
  String.mk (s.data.map Char.toLower)

/-- `Display for Literal` from `rdftk_core/src/literal.rs`:
`"lexical"^^<datatype-iri>`, `"lexical"@lowercased-language-tag`, or bare
`"lexical"`. -/
def Literal.display (l : Literal) : String :=
  "\"" ++ l.lexical_form ++ "\"" ++
    (match l.data_type, l.language with
     | some data_type, none => "^^<" ++ data_type.as_iri ++ ">"
     | none, some language => "@" ++ strToLower language
     | _, _ => "")

/-- The literals producible by the public constructors of
`rdftk_core/src/literal.rs`: `new`, `with_type`, `with_language`, and the
`From` conversions. -/
inductive Constructed : Literal → Prop where
  | new (s : String) : Constructed (Literal.new s)
  | with_type (s : String) (dt : DataType) : Constructed (Literal.with_type s dt)
  | with_language (s lang : String) : Constructed (Literal.with_language s lang)
  | fromString (s : String) : Constructed (Literal.fromString s)
  | fromIRI (iri : IRIRef) : Constructed (Literal.fromIRI iri)
  | fromQName (s : String) : Constructed (Literal.fromQName s)
  | fromBool (b : Bool) : Constructed (Literal.fromBool b)
  | fromF32 (s : String) : Constructed (Literal.fromF32 s)
  | fromF64 (s : String) : Constructed (Literal.fromF64 s)
  | fromI64 (n : Int) : Constructed (Literal.fromI64 n)
  | fromI32 (n : Int) : Constructed (Literal.fromI32 n)
  | fromI16 (n : Int) : Constructed (Literal.fromI16 n)
  | fromI8 (n : Int) : Constructed (Literal.fromI8 n)
  | fromU64 (n : Nat) : Constructed (Literal.fromU64 n)
  | fromU32 (n : Nat) : Constructed (Literal.fromU32 n)
  | fromU16 (n : Nat) : Constructed (Literal.fromU16 n)
  | fromU8 (n : Nat) : Constructed (Literal.fromU8 n)
  | fromDuration (secs nanos : Nat) : Constructed (Literal.fromDuration secs nanos)

/-- A hexadecimal digit character (either case), as in a `[[:xdigit:]]`
character class. -/
def isHexDigitChar (c : Char) : Bool :=
  c.isDigit || ('a' ≤ c && c ≤ 'f') || ('A' ≤ c && c ≤ 'F')

/-- The numeric value of a hexadecimal digit character. -/
def hexDigitVal (c : Char) : Nat :=
  if c.isDigit then c.toNat - '0'.toNat
  else if 'a' ≤ c && c ≤ 'f' then c.toNat - 'a'.toNat + 10
  else c.toNat - 'A'.toNat + 10

/-- The value of a big-endian string of hexadecimal digit characters. -/
def hexValue (ds : List Char) : Nat :=
  ds.foldl (fun acc c => 16 * acc + hexDigitVal c) 0

/-- The single-character escapes of the Debug-style escape format: `\0`,
`\t`, `\r`, `\n`, `\\` and `\"`; any other escaped character stands for
itself. -/
def unescape1 (c : Char) : Char :=
  if c = '0' then Char.ofNat 0
  else if c = 't' then '\t'
  else if c = 'r' then '\r'
  else if c = 'n' then '\n'
  else c

/-- One escape-sequence step of the Debug-style unescape: at a backslash,
recognize `\u{hex}` or a single-character escape, returning the decoded
character and the remaining input; `none` when the position starts no
recognizable escape. -/
def escSpan (l : List Char) : Option (Char × List Char) :=
  match l with
  | c :: e :: rest2 =>
    if c = '\\' then
      if e = 'u' then
        match rest2 with
        | b :: rest3 =>
          if b = lbrace ∧ (rest3.takeWhile isHexDigitChar).isEmpty = false
              ∧ (rest3.dropWhile isHexDigitChar).head? = some rbrace then
            some (Char.ofNat (hexValue (rest3.takeWhile isHexDigitChar)),
              (rest3.dropWhile isHexDigitChar).tail)
          else none
        | [] => none
      else some (unescape1 e, rest2)
    else none
  | _ => none

/-- Modelled from the spec: the spec's literal-escaping round-trip names an
`unescape` that is not part of the repository's code; this is the reading
back of the Debug-style escape format established at `Literal` construction
(`\0`, `\t`, `\r`, `\n`, `\\`, `\"` and `\u{hex}` sequences; anything else is
passed through). -/
def unescapeChars (l : List Char) : List Char :=
  match l with
  | [] => []
  | c :: rest =>
    match h : escSpan (c :: rest) with
    | some (d, r) => d :: unescapeChars r
    | none => c :: unescapeChars rest
termination_by l.length
decreasing_by
  · rcases rest with _ | ⟨e, rest2⟩
    · simp [escSpan] at h
    · simp only [escSpan] at h
      by_cases hc : c = '\\'
      · rw [if_pos hc] at h
        by_cases he : e = 'u'
        · rw [if_pos he] at h
          rcases rest2 with _ | ⟨b, rest3⟩
          · simp at h
          · dsimp only [] at h
            by_cases hcond : b = lbrace ∧ (rest3.takeWhile isHexDigitChar).isEmpty = false
                ∧ (rest3.dropWhile isHexDigitChar).head? = some rbrace
            · rw [if_pos hcond] at h
              cases h
              have h1 := (List.dropWhile_sublist (l := rest3) (p := isHexDigitChar)).length_le
              have h2 : (List.dropWhile isHexDigitChar rest3).tail.length
                  = (List.dropWhile isHexDigitChar rest3).length - 1 := List.length_tail _
              simp only [List.length_cons]
              omega
            · rw [if_neg hcond] at h
              cases h
        · rw [if_neg he] at h
          cases h
          simp only [List.length_cons]
          omega
      · rw [if_neg hc] at h
        cases h
  · simp

/-- String-level form of `unescapeChars`. -/
def unescape (s : String) : String :=
  String.mk (unescapeChars s.data)

/-- The value of a little-endian digit list. -/
def ofHexLE : List Nat → Nat
  | [] => 0
  | d :: r => d + 16 * ofHexLE r

-- ------------------------------------------------------------------------
-- Node, statement and resource model (rdftk_core)
-- ------------------------------------------------------------------------

/-- Modelled from the spec: `SubjectNode` (rdftk_core's statement module is
not under src/): a subject is a named node (IRI) or a blank node with a
process-local label. -/
inductive SubjectNode where
  | named (iri : IRIRef)
  | blank (label : String)
deriving DecidableEq, Repr

/-- Modelled from the spec: an object node is a named node, a blank node, or
a literal. -/
inductive ObjectNode where
  | named (iri : IRIRef)
  | blank (label : String)
  | literal (l : Literal)
deriving DecidableEq, Repr

/-- Modelled from the spec: `Statement`, the immutable subject–predicate–
object triple. -/
structure Statement where
  subject : SubjectNode
  predicate : IRIRef
  object : ObjectNode
deriving DecidableEq, Repr

/-- The `Into<ObjectNode>` conversion of a subject node. -/
def SubjectNode.toObject : SubjectNode → ObjectNode
  | .named iri => .named iri
  | .blank label => .blank label

/-- Modelled from the spec: blank-node allocation is monotonic and
collision-free within one flatten call; the allocator is a counter and the
label format is the `B<n>` seen in the resource.rs doc example. -/
def blankLabel (n : Nat) : String :=
  "B" ++ toString n

namespace rdf

/-- The RDF syntax namespace; the IRI string appears in the resource.rs doc
example output. -/
def ns : String := "http://www.w3.org/1999/02/22-rdf-syntax-ns#"

/-- `rdf::a_type` (rdf:type) from rdftk_names. -/
def a_type : IRIRef := ns ++ "type"

/-- Modelled from the spec: rdftk_names' `rdf::alt` constant (rdf:Alt). -/
def alt : IRIRef := ns ++ "Alt"

/-- Modelled from the spec: rdftk_names' `rdf::bag` constant (rdf:Bag). -/
def bag : IRIRef := ns ++ "Bag"

/-- Modelled from the spec: rdftk_names' `rdf::seq` constant (rdf:Seq). -/
def seq : IRIRef := ns ++ "Seq"

/-- Modelled from the spec: rdftk_names' `rdf::member(index)`; flatten passes
the 0-based enumeration index and the membership predicate at 1-based
position i is `rdf:_i`. -/
def member (index : Nat) : IRIRef :=
  ns ++ "_" ++ toString (index + 1)

end rdf

/-- `ContainerKind` from `rdftk_core/src/resource.rs`. -/
inductive ContainerKind where
  | alt
  | bag
  | seq
  | other (iri : IRIRef)
deriving DecidableEq, Repr

mutual

/-- `Resource` from `rdftk_core/src/resource.rs`: a subject plus a table from
predicate IRI to the ordered objects added under it. The `HashMap` is
modelled as an association list; its iteration order is not contract-fixed,
and no claim proved below depends on the cross-predicate order. -/
inductive Resource where
  | mk (subject : SubjectNode) (predicates : PredList)

/-- The entries of a resource's predicate table. -/
inductive PredList where
  | nil
  | cons (predicate : IRIRef) (objects : ObjList) (rest : PredList)

/-- An ordered list of resource objects under one predicate. -/
inductive ObjList where
  | nil
  | cons (object : RObj) (rest : ObjList)

/-- `ResourceObject` from `rdftk_core/src/resource.rs`: a nested resource, a
literal, or a container of literals or of resources. -/
inductive RObj where
  | resource (r : Resource)
  | literal (l : Literal)
  | literals (kind : ContainerKind) (values : List Literal)
  | resources (kind : ContainerKind) (values : ResList)

/-- An ordered list of resources (the values of a resource container). -/
inductive ResList where
  | nil
  | cons (r : Resource) (rest : ResList)

end

/-- The subject of a resource. -/
def Resource.subject : Resource → SubjectNode
  | .mk s _ => s

/-- Append of predicate-table entry lists (used to state where an entry sits
in the table). -/
def PredList.append : PredList → PredList → PredList
  | .nil, qs => qs
  | .cons p os rest, qs => .cons p os (PredList.append rest qs)

/-- Append of object lists. -/
def ObjList.append : ObjList → ObjList → ObjList
  | .nil, qs => qs
  | .cons o rest, qs => .cons o (ObjList.append rest qs)

/-- The container-class IRI chosen for a container kind by `flatten`
(`rdf:Alt`/`rdf:Bag`/`rdf:Seq`, or the wrapped IRI for `Other`). -/
def containerClass : ContainerKind → IRIRef
  | .alt => rdf.alt
  | .bag => rdf.bag
  | .seq => rdf.seq
  | .other iri => iri

mutual

/-- `flatten` from `rdftk_core/src/resource.rs`. The Rust function pushes
into a `&mut Vec<Statement>`; it is modelled by returning the emitted
statement list in push order, with the blank-node allocator state threaded
as a counter. -/
def flatten (resource : Resource) (n : Nat) : List Statement × Nat :=
  match resource with
  | .mk subject preds => flattenPreds subject preds n

/-- The loop of `flatten` over the predicate table. -/
def flattenPreds (subject : SubjectNode) (ps : PredList) (n : Nat) :
    List Statement × Nat :=
  match ps with
  | .nil => ([], n)
  | .cons p objs rest =>
    let r1 := flattenObjs subject p objs n
    let r2 := flattenPreds subject rest r1.2
    (r1.1 ++ r2.1, r2.2)

/-- The loop of `flatten` over the objects of one predicate. -/
def flattenObjs (subject : SubjectNode) (p : IRIRef) (os : ObjList) (n : Nat) :
    List Statement × Nat :=
  match os with
  | .nil => ([], n)
  | .cons o rest =>
    let r1 := flattenObj subject p o n
    let r2 := flattenObjs subject p rest r1.2
    (r1.1 ++ r2.1, r2.2)

/-- The per-object emission of `flatten`: a container object allocates one
fresh blank node and emits link, `rdf:type` and member statements in that
order; a plain object emits the link statement, preceded, for a nested
resource, by that resource's own statements. -/
def flattenObj (subject : SubjectNode) (p : IRIRef) (o : RObj) (n : Nat) :
    List Statement × Nat :=
  match o with
  | .literal l => ([Statement.mk subject p (ObjectNode.literal l)], n)
  | .resource r =>
    let nested := flatten r n
    (nested.1 ++ [Statement.mk subject p r.subject.toObject], nested.2)
  | .literals kind vals =>
    let container := SubjectNode.blank (blankLabel n)
    (Statement.mk subject p container.toObject
      :: Statement.mk container rdf.a_type (ObjectNode.named (containerClass kind))
      :: flattenLitMembers container vals 0, n + 1)
  | .resources kind vals =>
    let container := SubjectNode.blank (blankLabel n)
    let members := flattenResMembers container vals 0 (n + 1)
    (Statement.mk subject p container.toObject
      :: Statement.mk container rdf.a_type (ObjectNode.named (containerClass kind))
      :: members.1, members.2)

/-- The member loop of `flatten` for a literal container. -/
def flattenLitMembers (container : SubjectNode) (vals : List Literal)
    (index : Nat) : List Statement :=
  match vals with
  | [] => []
  | v :: rest =>
    Statement.mk container (rdf.member index) (ObjectNode.literal v)
      :: flattenLitMembers container rest (index + 1)

/-- The member loop of `flatten` for a resource container: each member is
flattened first and then linked through its own subject. -/
def flattenResMembers (container : SubjectNode) (vals : ResList)
    (index : Nat) (n : Nat) : List Statement × Nat :=
  match vals with
  | .nil => ([], n)
  | .cons r rest =>
    let nested := flatten r n
    let r2 := flattenResMembers container rest (index + 1) nested.2
    (nested.1 ++ (Statement.mk container (rdf.member index) r.subject.toObject :: r2.1),
      r2.2)

end

-- ------------------------------------------------------------------------
-- N-Triples decoder model (rdftk_io/src/nt/parser/mod.rs)
-- ------------------------------------------------------------------------

/-- Modelled from the spec: rdftk_iri's scheme test (the rdftk_iri crate is
not under src/): a scheme is an initial alphabetic character followed by
alphanumeric, plus, minus or dot characters, terminated by a colon. -/
def schemeChar (c : Char) : Bool :=
  c.isAlphanum || c = '+' || c = '-' || c = '.'

/-- Modelled from the spec: whether the IRI string begins with a scheme. -/
def hasScheme (s : String) : Bool :=
  match s.data with
  | [] => false
  | c :: rest => c.isAlpha && ((rest.dropWhile schemeChar).head? = some ':')

/-- Modelled from the spec: `IRI::is_relative_reference` — an IRI reference
is relative iff it has no scheme component. -/
def isRelativeReference (iri : IRIRef) : Bool :=
  !(hasScheme iri)

/-- The grammar rules of the N-Triples pest grammar that the decoder in
`rdftk_io/src/nt/parser/mod.rs` inspects. -/
inductive Rule where
  | ntriplesDoc
  | triple
  | subject
  | predicate
  | object
  | BlankNode
  | IRIREF
  | literal
  | rdfLiteral
  | String
  | STRING_LITERAL_QUOTE
  | QUOTE_INNER
  | iri
  | LANGTAG
  | EOI
deriving DecidableEq, Repr

/-- A pest parse-tree node (`Pair`): the matched rule, the matched text, and
the inner pairs. -/
inductive Pair where
  | mk (rule : Rule) (text : String) (inner : List Pair)

/-- The rule of a pair. -/
def Pair.rule : Pair → Rule
  | .mk r _ _ => r

/-- The matched text of a pair. -/
def Pair.text : Pair → String
  | .mk _ t _ => t

/-- The inner pairs of a pair. -/
def Pair.inner : Pair → List Pair
  | .mk _ _ i => i

/-- The decoder's error type: `unexpected!` errors carry the function name and
the offending rule and text; `AbsoluteIriExpected` carries the offending IRI
string; an invalid language tag carries the tag text; `missingChild` models
the `unwrap()` panic on a malformed tree (unreachable for grammar-produced
trees). -/
inductive NTError where
  | unexpected (fn : String) (rule : Rule) (text : String)
  | absoluteIriExpected (s : String)
  | invalidLanguageTag (s : String)
  | missingChild (fn : String)
deriving DecidableEq, Repr

/-- Modelled from the spec: the IRI parser of the rdftk_iri crate is not
under src/; the spec specifies only that an IRI is a validated absolute-or-
relative URI reference, so the model accepts every string and keeps its
string form. -/
def iriFromStr (s : String) : Except NTError IRIRef :=
  Except.ok s

/-- `unescape_uchar` from `rdftk_io/src/nt/parser/mod.rs`: drop the leading
backslash and `u`/`U`, read the hex digits, convert to a character. Rust's
`char::from_u32(...).unwrap()` panics on an invalid scalar value (a
surrogate, or above 0x10FFFF), where `Char.ofNat` is total and yields an
arbitrary placeholder (NUL); every escape-resolution theorem below carries a
valid-scalar hypothesis, so no result depends on the placeholder's value. -/
def unescapeUchar (uchar : List Char) : Char :=
  Char.ofNat (hexValue (uchar.drop 2))

/-- `unescape_iri` from `rdftk_io/src/nt/parser/mod.rs`: the regex fold over
non-overlapping leftmost matches of `(\\U[[:xdigit:]]{8})|(\\u[[:xdigit:]]{4})`
is modelled as a left-to-right scan; every match starts with a backslash, so
after a failed match at a backslash the scan may skip the two sigil
characters. -/
def unescapeIriList (l : List Char) : List Char :=
  match l with
  | '\\' :: 'U' :: h1 :: h2 :: h3 :: h4 :: h5 :: h6 :: h7 :: h8 :: rest =>
    if isHexDigitChar h1 && isHexDigitChar h2 && isHexDigitChar h3
        && isHexDigitChar h4 && isHexDigitChar h5 && isHexDigitChar h6
        && isHexDigitChar h7 && isHexDigitChar h8 then
      unescapeUchar ['\\', 'U', h1, h2, h3, h4, h5, h6, h7, h8]
        :: unescapeIriList rest
    else '\\' :: 'U' :: unescapeIriList (h1 :: h2 :: h3 :: h4 :: h5 :: h6 :: h7 :: h8 :: rest)
  | '\\' :: 'u' :: h1 :: h2 :: h3 :: h4 :: rest =>
    if isHexDigitChar h1 && isHexDigitChar h2 && isHexDigitChar h3
        && isHexDigitChar h4 then
      unescapeUchar ['\\', 'u', h1, h2, h3, h4] :: unescapeIriList rest
    else '\\' :: 'u' :: unescapeIriList (h1 :: h2 :: h3 :: h4 :: rest)
  | c :: rest => c :: unescapeIriList rest
  | [] => []
termination_by l.length
decreasing_by all_goals (simp only [List.length_cons]; omega)

/-- String-level form of `unescapeIriList`. -/
def unescapeIri (iri : String) : String :=
  String.mk (unescapeIriList iri.data)

namespace NT

/-- `iri_ref` from `rdftk_io/src/nt/parser/mod.rs`: strip the surrounding
angle brackets, resolve the unicode escapes, validate, and reject relative
references. -/
def iri_ref (input : Pair) : Except NTError IRIRef :=
  if input.rule = Rule.IRIREF then
    let iriText := input.text
    let iri_str := unescapeIri (String.mk ((iriText.data.drop 1).dropLast))
    match iriFromStr iri_str with
    | .ok iri =>
      if !(isRelativeReference iri) then .ok iri
      else .error (.absoluteIriExpected iri_str)
    | .error e => .error e
  else .error (.unexpected "iri_ref" input.rule input.text)

/-- `iri` from `rdftk_io/src/nt/parser/mod.rs`. -/
def iri (input : Pair) : Except NTError IRIRef :=
  if input.rule = Rule.iri then
    match input.inner with
    | inner :: _ =>
      if inner.rule = Rule.IRIREF then iri_ref inner
      else .error (.unexpected "iri" inner.rule inner.text)
    | [] => .error (.missingChild "iri")
  else .error (.unexpected "iri" input.rule input.text)

/-- Modelled from the spec: segments of a language tag split at minus signs
(the language-tag grammar validates `[a-zA-Z]+` then `-`-separated
alphanumeric subtags). -/
def langTagSegs : List Char → List (List Char)
  | [] => [[]]
  | c :: rest =>
    if c = '-' then [] :: langTagSegs rest
    else
      match langTagSegs rest with
      | s :: ss => (c :: s) :: ss
      | [] => [[c]]

/-- Modelled from the spec: the language-tag grammar — a nonempty alphabetic
primary subtag followed by nonempty alphanumeric subtags. -/
def langTagOk (s : String) : Bool :=
  match langTagSegs s.data with
  | [] => false
  | first :: rest =>
    !first.isEmpty && first.all Char.isAlpha
      && rest.all (fun seg => !seg.isEmpty && seg.all (fun c => c.isAlphanum))

/-- Modelled from the spec: `LanguageTag::from_str` (the language-tags crate
is external): validate against the language-tag grammar, preserving the tag
as parsed. -/
def languageTagFromStr (s : String) : Except NTError String :=
  if langTagOk s then .ok s else .error (.invalidLanguageTag s)

/-- `lang_tag` from `rdftk_io/src/nt/parser/mod.rs`: strip the leading `@`
and validate. -/
def lang_tag (input : Pair) : Except NTError String :=
  if input.rule = Rule.LANGTAG then
    languageTagFromStr (String.mk (input.text.data.drop 1))
  else .error (.unexpected "lang_tag" input.rule input.text)

/-- Modelled from the spec: the simple literal factory's `literal(lexical)`
(rdftk_core's simple implementation is not under src/): an untyped literal
whose interior text is kept as already-escaped text. -/
def facLiteral (lexical_form : String) : Literal :=
  { lexical_form := lexical_form, data_type := none, language := none }

/-- Modelled from the spec: the literal factory's `with_data_type`. -/
def facWithDataType (lexical_form : String) (data_type : DataType) : Literal :=
  { lexical_form := lexical_form, data_type := some data_type, language := none }

/-- Modelled from the spec: the literal factory's `with_language`; the tag is
preserved as parsed. -/
def facWithLanguage (lexical_form : String) (language : String) : Literal :=
  { lexical_form := lexical_form, data_type := none, language := some language }

/-- `string` from `rdftk_io/src/nt/parser/mod.rs`: the quoted string's
interior (`QUOTE_INNER`) is taken as-is. -/
def string (input : Pair) : Except NTError String :=
  if input.rule = Rule.String then
    match input.inner with
    | inner :: _ =>
      match inner.rule with
      | .STRING_LITERAL_QUOTE =>
        match inner.inner with
        | inner2 :: _ =>
          if inner2.rule = Rule.QUOTE_INNER then .ok inner2.text
          else .error (.unexpected "string" inner2.rule inner2.text)
        | [] => .error (.missingChild "string")
      | _ => .error (.unexpected "string" inner.rule inner.text)
    | [] => .error (.missingChild "string")
  else .error (.unexpected "string" input.rule input.text)

/-- `rdf_literal` from `rdftk_io/src/nt/parser/mod.rs`: a lexical form with an
optional suffix that is either a datatype IRI — always stored as
`DataType::Other` — or a language tag. -/
def rdf_literal (input : Pair) : Except NTError Literal :=
  if input.rule = Rule.rdfLiteral then
    match input.inner with
    | first :: rest =>
      match NT.string first with
      | .ok lexical_form =>
        match rest with
        | other :: _ =>
          match other.rule with
          | .iri =>
            match NT.iri other with
            | .ok i => .ok (facWithDataType lexical_form (DataType.Other i))
            | .error e => .error e
          | .LANGTAG =>
            match NT.lang_tag other with
            | .ok tag => .ok (facWithLanguage lexical_form tag)
            | .error e => .error e
          | _ => .error (.unexpected "literal" other.rule other.text)
        | [] => .ok (facLiteral lexical_form)
      | .error e => .error e
    | [] => .error (.missingChild "rdf_literal")
  else .error (.unexpected "literal" input.rule input.text)

/-- `literal` from `rdftk_io/src/nt/parser/mod.rs`. -/
def literal (input : Pair) : Except NTError Literal :=
  if input.rule = Rule.literal then
    match input.inner with
    | inner :: _ => rdf_literal inner
    | [] => .error (.missingChild "literal")
  else .error (.unexpected "literal" input.rule input.text)

/-- `subject` from `rdftk_io/src/nt/parser/mod.rs`: an IRI subject or a blank
node whose `_:` sigil is stripped. -/
def subject (input : Pair) : Except NTError SubjectNode :=
  if input.rule = Rule.subject then
    match input.inner with
    | inner :: _ =>
      match inner.rule with
      | .IRIREF =>
        match iri_ref inner with
        | .ok i => .ok (SubjectNode.named i)
        | .error e => .error e
      | .BlankNode => .ok (SubjectNode.blank (String.mk (inner.text.data.drop 2)))
      | _ => .error (.unexpected "subject" inner.rule inner.text)
    | [] => .error (.missingChild "subject")
  else .error (.unexpected "subject" input.rule input.text)

/-- `predicate` from `rdftk_io/src/nt/parser/mod.rs` (its `unexpected!`
errors name "subject", as in the source). -/
def predicate (input : Pair) : Except NTError IRIRef :=
  if input.rule = Rule.predicate then
    match input.inner with
    | inner :: _ =>
      if inner.rule = Rule.IRIREF then iri_ref inner
      else .error (.unexpected "subject" inner.rule inner.text)
    | [] => .error (.missingChild "predicate")
  else .error (.unexpected "subject" input.rule input.text)

/-- `object` from `rdftk_io/src/nt/parser/mod.rs`. -/
def object (input : Pair) : Except NTError ObjectNode :=
  if input.rule = Rule.object then
    match input.inner with
    | inner :: _ =>
      match inner.rule with
      | .IRIREF =>
        match iri_ref inner with
        | .ok i => .ok (ObjectNode.named i)
        | .error e => .error e
      | .BlankNode => .ok (ObjectNode.blank (String.mk (inner.text.data.drop 2)))
      | .literal =>
        match literal inner with
        | .ok l => .ok (ObjectNode.literal l)
        | .error e => .error e
      | _ => .error (.unexpected "object" inner.rule inner.text)
    | [] => .error (.missingChild "object")
  else .error (.unexpected "object" input.rule input.text)

/-- `triple` from `rdftk_io/src/nt/parser/mod.rs`: decode subject, predicate
and object in that order, each error propagating immediately. -/
def triple (input : Pair) : Except NTError Statement :=
  if input.rule = Rule.triple then
    match input.inner with
    | s :: pr :: o :: _ =>
      match subject s with
      | .ok subj =>
        match predicate pr with
        | .ok pred =>
          match object o with
          | .ok obj => .ok (Statement.mk subj pred obj)
          | .error e => .error e
        | .error e => .error e
      | .error e => .error e
    | _ => .error (.missingChild "triple")
  else .error (.unexpected "triple" input.rule input.text)

/-- The statement loop of `ntriples_doc`: the graph (modelled from the spec's
graph interface as the statement list in insertion order) starts freshly
empty, each decoded triple is inserted in file order, and the first error
aborts the whole loop. -/
def docLoop : List Pair → List Statement → Except NTError (List Statement)
  | [], graph => .ok graph
  | q :: rest, graph =>
    match q.rule with
    | .triple =>
      match triple q with
      | .ok st => docLoop rest (graph ++ [st])
      | .error e => .error e
    | .EOI => docLoop rest graph
    | _ => .error (.unexpected "ntriples_doc" q.rule q.text)

/-- Specification-side restatement used to characterize `ntriples_doc`:
decode a list of triple nodes in order, the first error failing the whole
list (the spec's "all decoded statements, in file order"). -/
def decodeTriples : List Pair → Except NTError (List Statement)
  | [] => Except.ok []
  | q :: rest =>
    match triple q with
    | .ok st =>
      match decodeTriples rest with
      | .ok sts => .ok (st :: sts)
      | .error e => .error e
    | .error e => .error e

/-- `ntriples_doc` from `rdftk_io/src/nt/parser/mod.rs`. -/
def ntriples_doc (input : Pair) : Except NTError (List Statement) :=
  if input.rule = Rule.ntriplesDoc then docLoop input.inner []
  else .error (.unexpected "ntriples_doc" input.rule input.text)

end NT

-- ------------------------------------------------------------------------
-- Turtle writer model (rdftk_io/src/turtle/writer.rs)
-- ------------------------------------------------------------------------

/-- `TurtleOptions` from `rdftk_io/src/turtle/writer.rs`. -/
structure TurtleOptions where
  nest_blank_nodes : Bool
  use_sparql_style : Bool
deriving DecidableEq, Repr

/-- `Default for TurtleOptions`: nesting on, traditional style. -/
def TurtleOptions.default : TurtleOptions :=
  { nest_blank_nodes := true, use_sparql_style := false }

/-- `TurtleWriter` from `rdftk_io/src/turtle/writer.rs`: an optional base IRI
(stored in string form) and the options. -/
structure TurtleWriter where
  base : Option String
  options : TurtleOptions
deriving DecidableEq, Repr

/-- Modelled from the spec: the `Indenter` of rdftk_io's common module is not
under src/; it tracks an indentation depth with `indent`/`outdent`/`depth`
and renders as whitespace (two spaces per level here; the claims below do
not depend on the unit width). -/
structure Indenter where
  depth : Nat
deriving DecidableEq, Repr

/-- One more indentation level. -/
def Indenter.indent (i : Indenter) : Indenter :=
  { depth := i.depth + 1 }

/-- One less indentation level. -/
def Indenter.outdent (i : Indenter) : Indenter :=
  { depth := i.depth - 1 }

/-- The rendering of the indenter (`write!(w, "{}", indenter)`). -/
def Indenter.render (i : Indenter) : String :=
  String.mk (List.replicate (i.depth * 2) ' ')

/-- `Indenter::one()`: a single indentation unit. -/
def Indenter.one (_ : Indenter) : String :=
  "  "

/-- Whether a subject is a blank node (`SubjectNode::is_blank`). -/
def SubjectNode.isBlank : SubjectNode → Bool
  | .blank _ => true
  | .named _ => false

/-- Whether a subject is named by an IRI (`SubjectNode::is_iri`). -/
def SubjectNode.isIri : SubjectNode → Bool
  | .named _ => true
  | .blank _ => false

/-- `SubjectNode::as_blank().unwrap()`; the named case is unreachable where
this is called. -/
def SubjectNode.labelOf : SubjectNode → String
  | .blank label => label
  | .named _ => ""

/-- `SubjectNode::as_iri().unwrap()`; the blank case is unreachable where
this is called. -/
def SubjectNode.iriOf : SubjectNode → IRIRef
  | .named iri => iri
  | .blank _ => ""

/-- Whether an object is a blank node. -/
def ObjectNode.isBlank : ObjectNode → Bool
  | .blank _ => true
  | _ => false

/-- Whether an object is named by an IRI. -/
def ObjectNode.isIri : ObjectNode → Bool
  | .named _ => true
  | _ => false

/-- `ObjectNode::as_blank().unwrap()`. -/
def ObjectNode.labelOf : ObjectNode → String
  | .blank label => label
  | _ => ""

/-- `ObjectNode::as_subject().unwrap()`: the subject view of an object node;
only reached for blank objects in the writer. -/
def ObjectNode.asSubject : ObjectNode → SubjectNode
  | .blank label => SubjectNode.blank label
  | .named iri => SubjectNode.named iri
  | .literal _ => SubjectNode.blank ""

/-- `ObjectNode::as_literal().unwrap()`; only reached for literal objects. -/
def ObjectNode.literalOf : ObjectNode → Literal
  | .literal l => l
  | _ => { lexical_form := "", data_type := none, language := none }

/-- Modelled from the spec: the graph collaborator interface of section 6 —
the distinct subjects, the predicates of a subject, the objects of a
(subject, predicate) pair, and the prefix mappings in insertion order (a
`Prefix::Default` entry carries no name). -/
structure Graph where
  subjects : List SubjectNode
  predicatesFor : SubjectNode → List IRIRef
  objectsFor : SubjectNode → IRIRef → List ObjectNode
  mappings : List (Option String × String)

/-- Modelled from the spec: `PrefixMappings::compress` — the longest
registered namespace that is a prefix of the IRI string wins, and the result
is the pair (prefix name, local part). -/
def compress (mappings : List (Option String × String)) (iri : IRIRef) :
    Option (String × String) :=
  let best := mappings.foldl
    (fun best pn =>
      if pn.2.isPrefixOf iri then
        match best with
        | none => some pn
        | some prev => if prev.2.length < pn.2.length then some pn else best
      else best) none
  best.map (fun pn =>
    ((match pn.1 with | none => "" | some name => name), iri.drop pn.2.length))

/-- Modelled from the spec: the `QName` display form `prefix:local`. -/
def qnameToString (q : String × String) : String :=
  q.1 ++ ":" ++ q.2

/-- `TurtleWriter::write_iri` from `rdftk_io/src/turtle/writer.rs`: a
base-relative IRI is written as the suffix after the base in angle brackets;
otherwise the compressed qname form or the absolute bracketed form, always
with a trailing space. -/
def write_iri (wr : TurtleWriter) (iri : IRIRef)
    (mappings : List (Option String × String)) : String :=
  let compressed := match compress mappings iri with
    | none => "<" ++ iri ++ ">"
    | some q => qnameToString q
  match wr.base with
  | some base =>
    if base.isPrefixOf iri then "<" ++ iri.drop base.length ++ "> "
    else compressed ++ " "
  | none => compressed ++ " "

/-- `TurtleWriter::write_literal` from `rdftk_io/src/turtle/writer.rs`: the
literal's display form with a trailing space. -/
def write_literal (l : Literal) : String :=
  l.display ++ " "

mutual

/-- `TurtleWriter::write_sub_graph` from `rdftk_io/src/turtle/writer.rs`:
render one subject block, returning the written text and the blank nodes
written as nested blocks. The Rust recursion is unbounded on cyclic graphs;
the model carries explicit fuel consumed at each nesting step. -/
def write_sub_graph (wr : TurtleWriter) (g : Graph) (fuel : Nat)
    (subject : SubjectNode) (ind : Indenter) : String × List SubjectNode :=
  match fuel with
  | 0 => ("", [])
  | f + 1 =>
    let s1 := ind.render ++
      (if subject.isBlank && ind.depth == 0 then "_:" ++ subject.labelOf ++ " "
       else if subject.isIri then write_iri wr subject.iriOf g.mappings
       else "")
    let r := predLoop wr g f subject ind.indent (g.predicatesFor subject)
    let ind2 := ind.indent.outdent
    (s1 ++ r.1 ++ (if ind2.depth == 0 then ".\n" else "\n"), r.2)

/-- The predicate loop of `write_sub_graph`: predicate IRI, its object list,
semicolon-and-newline separators between predicates, with an extra indent
level while a predicate has multiple objects. -/
def predLoop (wr : TurtleWriter) (g : Graph) (fuel : Nat)
    (subject : SubjectNode) (ind : Indenter) (ps : List IRIRef) :
    String × List SubjectNode :=
  match ps with
  | [] => ("", [])
  | p :: rest =>
    let s1 := write_iri wr p g.mappings
    let objects := g.objectsFor subject p
    let ind1 := if objects.length > 1 then ind.indent else ind
    let r1 := objLoop wr g fuel ind1 objects
    let sep := if rest.isEmpty then "" else ";\n" ++ ind1.render
    let ind2 := if objects.length > 1 then ind1.outdent else ind1
    let r2 := predLoop wr g fuel subject ind2 rest
    (s1 ++ r1.1 ++ sep ++ r2.1, r1.2 ++ r2.2)

/-- The object loop of `write_sub_graph`: objects comma-and-newline
separated. -/
def objLoop (wr : TurtleWriter) (g : Graph) (fuel : Nat)
    (ind : Indenter) (objects : List ObjectNode) : String × List SubjectNode :=
  match objects with
  | [] => ("", [])
  | o :: rest =>
    let r1 := renderObject wr g fuel ind o
    let sep := if rest.isEmpty then "" else ",\n"
    let r2 := objLoop wr g fuel ind rest
    (r1.1 ++ sep ++ r2.1, r1.2 ++ r2.2)

/-- One object of `write_sub_graph`: a blank object becomes a nested
`[ ... ]` block when nesting is enabled — its subject is recorded, first,
in the returned blank list — or a `_:label` reference when nesting is
disabled; a named object is an IRI; otherwise the literal display form. -/
def renderObject (wr : TurtleWriter) (g : Graph) (fuel : Nat)
    (ind : Indenter) (o : ObjectNode) : String × List SubjectNode :=
  if o.isBlank && wr.options.nest_blank_nodes then
    let inner_subject := o.asSubject
    let r := write_sub_graph wr g fuel inner_subject ind
    ("[\n" ++ ind.one ++ r.1 ++ ind.render ++ "]", inner_subject :: r.2)
  else if o.isBlank && !wr.options.nest_blank_nodes then
    ("_:" ++ o.labelOf, [])
  else if o.isIri then
    (write_iri wr (match o with | .named iri => iri | _ => "") g.mappings, [])
  else
    (write_literal o.literalOf, [])

end

/-- Concatenation of a list of strings in order. -/
def concatStrings : List String → String
  | [] => ""
  | s :: rest => s ++ concatStrings rest

/-- One prefix declaration line of `TurtleWriter::write`, in the configured
style. -/
def declString (wr : TurtleWriter) (pn : Option String × String) : String :=
  let name := match pn.1 with | none => "" | some p => p
  if wr.options.use_sparql_style then "PREFIX " ++ name ++ ": <" ++ pn.2 ++ ">\n"
  else "@prefix " ++ name ++ ": <" ++ pn.2 ++ "> .\n"

/-- The header part of `TurtleWriter::write`: the optional base declaration
in either style, a blank line, every prefix mapping in insertion order, a
blank line. -/
def writeHeader (wr : TurtleWriter) (g : Graph) : String :=
  (match wr.base with
   | some b =>
     if wr.options.use_sparql_style then "BASE <" ++ b ++ ">\n"
     else "@base <" ++ b ++ "> .\n"
   | none => "") ++ "\n"
  ++ concatStrings (g.mappings.map (declString wr)) ++ "\n"

/-- The first subject loop of `TurtleWriter::write`: blank subjects are
deferred to `blanks_to_write`, IRI-named subjects are written immediately
and the blank nodes nested in their blocks collected into `blanks_written`;
each iteration ends with a newline. The state triple is
(blanks_to_write, blanks_written, output so far). -/
def writeLoop1 (wr : TurtleWriter) (g : Graph) (fuel : Nat) :
    List SubjectNode → List SubjectNode × List SubjectNode × String
      → List SubjectNode × List SubjectNode × String
  | [], st => st
  | s :: rest, (toW, written, out) =>
    if s.isBlank then writeLoop1 wr g fuel rest (toW ++ [s], written, out ++ "\n")
    else
      let r := write_sub_graph wr g fuel s { depth := 0 }
      writeLoop1 wr g fuel rest (toW, written ++ r.2, out ++ r.1 ++ "\n")

/-- `TurtleWriter::write` from `rdftk_io/src/turtle/writer.rs`: header, the
first subject loop, then the retained blank subjects — those not recorded as
written — as top-level blocks. -/
def write (wr : TurtleWriter) (g : Graph) (fuel : Nat) : String :=
  let st := writeLoop1 wr g fuel g.subjects ([], [], "")
  writeHeader wr g ++ st.2.2
    ++ concatStrings ((st.1.filter (fun s => !(st.2.1.contains s))).map
        (fun s => (write_sub_graph wr g fuel s { depth := 0 }).1))

/-- The blank nodes recorded as nested-written during the IRI-named-subject
pass (specification-side characterization of `blanks_written`). -/
def nestedWritten (wr : TurtleWriter) (g : Graph) (fuel : Nat) : List SubjectNode :=
  (g.subjects.filter (fun s => !s.isBlank)).flatMap
    (fun s => (write_sub_graph wr g fuel s { depth := 0 }).2)

/-- The blank subjects rendered by the top-level blank pass: the blank
subjects not recorded as nested-written. -/
def topLevelBlanks (wr : TurtleWriter) (g : Graph) (fuel : Nat) : List SubjectNode :=
  (g.subjects.filter (fun s => s.isBlank)).filter
    (fun s => !((nestedWritten wr g fuel).contains s))

/-- A writer with the default options and no base, used as a concrete
instance. -/
def wr0 : TurtleWriter :=
  { base := none, options := TurtleOptions.default }

/-- A concrete two-subject graph: an IRI-named subject whose single object is
the blank node `b1`, which is also a top-level subject. -/
def g0 : Graph :=
  { subjects := [SubjectNode.named "http://a/s", SubjectNode.blank "b1"],
    predicatesFor := fun _ => ["http://a/p"],
    objectsFor := fun _ _ => [ObjectNode.blank "b1"],
    mappings := [] }

-- ------------------------------------------------------------------------
-- Helper lemmas for the escape round-trip
-- ------------------------------------------------------------------------

theorem hexDigitVal_hexDigitChar (d : Nat) (h : d < 16) :
    hexDigitVal (hexDigitChar d) = d := by
  interval_cases d <;> decide

theorem isHexDigitChar_hexDigitChar (d : Nat) (h : d < 16) :
    isHexDigitChar (hexDigitChar d) = true := by
  interval_cases d <;> decide

theorem toHexLE_ne_nil (n : Nat) : toHexLE n ≠ [] := by
  rw [toHexLE]
  split <;> simp

theorem toHexLE_digits_lt (n : Nat) : ∀ d ∈ toHexLE n, d < 16 := by
  induction n using Nat.strong_induction_on with
  | _ n ih =>
    rw [toHexLE]
    split
    · simp
      omega
    · intro d hd
      simp at hd
      rcases hd with h | h
      · omega
      · exact ih (n / 16) (Nat.div_lt_self (by omega) (by norm_num)) d h

theorem ofHexLE_toHexLE (n : Nat) : ofHexLE (toHexLE n) = n := by
  induction n using Nat.strong_induction_on with
  | _ n ih =>
    rw [toHexLE]
    split
    · simp [ofHexLE]
    · simp only [ofHexLE]
      rw [ih (n / 16) (Nat.div_lt_self (by omega) (by norm_num))]
      omega

theorem hexValue_aux (ds : List Nat) (h : ∀ d ∈ ds, d < 16) (a : Nat) :
    List.foldl (fun acc c => 16 * acc + hexDigitVal c) a
      ((ds.map hexDigitChar).reverse) = a * 16 ^ ds.length + ofHexLE ds := by
  induction ds generalizing a with
  | nil => simp [ofHexLE]
  | cons d r ih =>
    simp only [List.map_cons, List.reverse_cons, List.foldl_append, List.foldl_cons,
      List.foldl_nil, List.length_cons, ofHexLE]
    rw [ih (fun x hx => h x (by simp [hx])) a]
    rw [hexDigitVal_hexDigitChar d (h d (by simp))]
    ring

theorem hexValue_hexRender (n : Nat) : hexValue (hexRender n) = n := by
  unfold hexValue hexRender
  rw [hexValue_aux (toHexLE n) (toHexLE_digits_lt n) 0]
  simp [ofHexLE_toHexLE]

theorem hexRender_ne_nil (n : Nat) : hexRender n ≠ [] := by
  unfold hexRender
  simp [toHexLE_ne_nil]

theorem hexRender_all_hex (n : Nat) : ∀ c ∈ hexRender n, isHexDigitChar c = true := by
  unfold hexRender
  intro c hc
  simp at hc
  obtain ⟨d, hd, rfl⟩ := hc
  exact isHexDigitChar_hexDigitChar d (toHexLE_digits_lt n d hd)

theorem takeWhile_append_sat {p : Char → Bool} (ds : List Char) (r0 : Char)
    (r : List Char) (hds : ∀ c ∈ ds, p c = true) (hr0 : p r0 = false) :
    (ds ++ r0 :: r).takeWhile p = ds ∧ (ds ++ r0 :: r).dropWhile p = r0 :: r := by
  induction ds with
  | nil => simp [List.takeWhile, List.dropWhile, hr0]
  | cons d ds ih =>
    have hd : p d = true := hds d (by simp)
    have := ih (fun c hc => hds c (by simp [hc]))
    simp [List.takeWhile, List.dropWhile, hd, this.1, this.2]

theorem escSpan_not_backslash (c : Char) (rest : List Char) (h : ¬c = '\\') :
    escSpan (c :: rest) = none := by
  cases rest <;> simp [escSpan, h]

theorem escSpan_esc1 (e : Char) (rest : List Char) (h : ¬e = 'u') :
    escSpan ('\\' :: e :: rest) = some (unescape1 e, rest) := by
  simp [escSpan, h]

theorem escSpan_escHex (ds rest : List Char)
    (hds : ∀ c ∈ ds, isHexDigitChar c = true) (hne : ds ≠ []) :
    escSpan ('\\' :: 'u' :: lbrace :: (ds ++ rbrace :: rest))
      = some (Char.ofNat (hexValue ds), rest) := by
  have hsplit := takeWhile_append_sat (p := isHexDigitChar) ds rbrace rest hds (by decide)
  rw [escSpan, if_pos rfl, if_pos rfl,
    if_pos ⟨rfl, by simp [hsplit.1, hne], by simp [hsplit.2]⟩]
  simp [hsplit.1, hsplit.2]

theorem unescapeChars_nil : unescapeChars [] = [] := by
  rw [unescapeChars]

theorem unescapeChars_cons_of_escSpan_none (c : Char) (rest : List Char)
    (h : escSpan (c :: rest) = none) :
    unescapeChars (c :: rest) = c :: unescapeChars rest := by
  conv_lhs => rw [unescapeChars]
  split
  · rename_i d r heq
    rw [h] at heq
    cases heq
  · rfl

theorem unescapeChars_cons_of_escSpan_some (c : Char) (rest : List Char)
    (d : Char) (r : List Char) (h : escSpan (c :: rest) = some (d, r)) :
    unescapeChars (c :: rest) = d :: unescapeChars r := by
  conv_lhs => rw [unescapeChars]
  split
  · rename_i d' r' heq
    rw [h] at heq
    cases heq
    rfl
  · rename_i heq
    rw [h] at heq
    cases heq

theorem unescapeChars_plain (c : Char) (rest : List Char) (h : ¬c = '\\') :
    unescapeChars (c :: rest) = c :: unescapeChars rest :=
  unescapeChars_cons_of_escSpan_none c rest (escSpan_not_backslash c rest h)

theorem unescapeChars_esc1 (e : Char) (rest : List Char) (h : ¬e = 'u') :
    unescapeChars ('\\' :: e :: rest) = unescape1 e :: unescapeChars rest :=
  unescapeChars_cons_of_escSpan_some '\\' (e :: rest) (unescape1 e) rest
    (escSpan_esc1 e rest h)

theorem unescapeChars_escHex (ds rest : List Char)
    (hds : ∀ c ∈ ds, isHexDigitChar c = true) (hne : ds ≠ []) :
    unescapeChars ('\\' :: 'u' :: lbrace :: (ds ++ rbrace :: rest))
      = Char.ofNat (hexValue ds) :: unescapeChars rest :=
  unescapeChars_cons_of_escSpan_some '\\' ('u' :: lbrace :: (ds ++ rbrace :: rest))
    (Char.ofNat (hexValue ds)) rest (escSpan_escHex ds rest hds hne)

theorem unescape_escape_cons (c : Char) (rest : List Char) :
    unescapeChars (escapeDebugChar c ++ rest) = c :: unescapeChars rest := by
  by_cases h0 : c = Char.ofNat 0
  · subst h0
    have he : escapeDebugChar (Char.ofNat 0) = ['\\', '0'] := by decide
    rw [he, List.cons_append, List.singleton_append,
      unescapeChars_esc1 '0' rest (by decide)]
    rfl
  by_cases ht : c = '\t'
  · subst ht
    have he : escapeDebugChar '\t' = ['\\', 't'] := by decide
    rw [he, List.cons_append, List.singleton_append,
      unescapeChars_esc1 't' rest (by decide)]
    rfl
  by_cases hr : c = '\r'
  · subst hr
    have he : escapeDebugChar '\r' = ['\\', 'r'] := by decide
    rw [he, List.cons_append, List.singleton_append,
      unescapeChars_esc1 'r' rest (by decide)]
    rfl
  by_cases hn : c = '\n'
  · subst hn
    have he : escapeDebugChar '\n' = ['\\', 'n'] := by decide
    rw [he, List.cons_append, List.singleton_append,
      unescapeChars_esc1 'n' rest (by decide)]
    rfl
  by_cases hb : c = '\\'
  · subst hb
    have he : escapeDebugChar '\\' = ['\\', '\\'] := by decide
    rw [he, List.cons_append, List.singleton_append,
      unescapeChars_esc1 '\\' rest (by decide)]
    rfl
  by_cases hq : c = '"'
  · subst hq
    have he : escapeDebugChar '"' = ['\\', '"'] := by decide
    rw [he, List.cons_append, List.singleton_append,
      unescapeChars_esc1 '"' rest (by decide)]
    rfl
  by_cases hp : isDebugPrintable c
  · have he : escapeDebugChar c = [c] := by
      simp [escapeDebugChar, h0, ht, hr, hn, hb, hq, hp]
    rw [he, List.singleton_append, unescapeChars_plain c rest hb]
  · have he : escapeDebugChar c = '\\' :: 'u' :: lbrace :: (hexRender c.toNat ++ [rbrace]) := by
      simp [escapeDebugChar, h0, ht, hr, hn, hb, hq, hp]
    rw [he]
    have : ('\\' :: 'u' :: lbrace :: (hexRender c.toNat ++ [rbrace])) ++ rest
        = '\\' :: 'u' :: lbrace :: (hexRender c.toNat ++ rbrace :: rest) := by
      simp
    rw [this, unescapeChars_escHex (hexRender c.toNat) rest (hexRender_all_hex c.toNat)
      (hexRender_ne_nil c.toNat), hexValue_hexRender, Char.ofNat_toNat]

theorem unescapeChars_flatMap (l : List Char) :
    unescapeChars (l.flatMap escapeDebugChar) = l := by
  induction l with
  | nil => simp [unescapeChars]
  | cons c rest ih => rw [List.flatMap_cons, unescape_escape_cons, ih]

theorem escape_string_data (value : String) :
    (Literal.escape_string value).data = value.data.flatMap escapeDebugChar := by
  simp [Literal.escape_string, formatDebug]

-- ------------------------------------------------------------------------
-- Claim theorems for the literal model
-- ------------------------------------------------------------------------

/-- C1: every literal produced by a public constructor (`new`, `with_type`,
`with_language`, or a `From` conversion) never has both `data_type` and
`language` set; `with_type` and every `From` conversion yield `data_type`
Some — each conversion exactly the matching `DataType` variant — and
`language` None, the language-tagged construction yields `language` Some and
`data_type` None, and the untyped construction yields both None. -/
theorem constructed_literal_consistent :
    (∀ l : Literal, Constructed l → ¬(l.data_type.isSome ∧ l.language.isSome))
    ∧ (∀ s dt, (Literal.with_type s dt).data_type = some dt
        ∧ (Literal.with_type s dt).language = none)
    ∧ (∀ s lang, (Literal.with_language s lang).language = some lang
        ∧ (Literal.with_language s lang).data_type = none)
    ∧ (∀ s, (Literal.new s).data_type = none ∧ (Literal.new s).language = none)
    ∧ (∀ s, (Literal.fromString s).data_type = some DataType.String
        ∧ (Literal.fromString s).language = none)
    ∧ (∀ iri, (Literal.fromIRI iri).data_type = some DataType.IRI
        ∧ (Literal.fromIRI iri).language = none)
    ∧ (∀ s, (Literal.fromQName s).data_type = some DataType.QName
        ∧ (Literal.fromQName s).language = none)
    ∧ (∀ b, (Literal.fromBool b).data_type = some DataType.Boolean
        ∧ (Literal.fromBool b).language = none)
    ∧ (∀ s, (Literal.fromF32 s).data_type = some DataType.Float
        ∧ (Literal.fromF32 s).language = none)
    ∧ (∀ s, (Literal.fromF64 s).data_type = some DataType.Double
        ∧ (Literal.fromF64 s).language = none)
    ∧ (∀ n : Int, (Literal.fromI64 n).data_type = some DataType.Long
        ∧ (Literal.fromI64 n).language = none)
    ∧ (∀ n : Int, (Literal.fromI32 n).data_type = some DataType.Int
        ∧ (Literal.fromI32 n).language = none)
    ∧ (∀ n : Int, (Literal.fromI16 n).data_type = some DataType.Short
        ∧ (Literal.fromI16 n).language = none)
    ∧ (∀ n : Int, (Literal.fromI8 n).data_type = some DataType.Byte
        ∧ (Literal.fromI8 n).language = none)
    ∧ (∀ n : Nat, (Literal.fromU64 n).data_type = some DataType.UnsignedLong
        ∧ (Literal.fromU64 n).language = none)
    ∧ (∀ n : Nat, (Literal.fromU32 n).data_type = some DataType.UnsignedInt
        ∧ (Literal.fromU32 n).language = none)
    ∧ (∀ n : Nat, (Literal.fromU16 n).data_type = some DataType.UnsignedShort
        ∧ (Literal.fromU16 n).language = none)
    ∧ (∀ n : Nat, (Literal.fromU8 n).data_type = some DataType.UnsignedByte
        ∧ (Literal.fromU8 n).language = none)
    ∧ (∀ secs nanos : Nat,
        (Literal.fromDuration secs nanos).data_type = some DataType.Duration
        ∧ (Literal.fromDuration secs nanos).language = none) := by
  refine ⟨?_,
    fun s dt => ⟨rfl, rfl⟩,
    fun s lang => ⟨rfl, rfl⟩,
    fun s => ⟨rfl, rfl⟩,
    fun s => ⟨rfl, rfl⟩,
    fun iri => ⟨rfl, rfl⟩,
    fun s => ⟨rfl, rfl⟩,
    fun b => ⟨rfl, rfl⟩,
    fun s => ⟨rfl, rfl⟩,
    fun s => ⟨rfl, rfl⟩,
    fun n => ⟨rfl, rfl⟩,
    fun n => ⟨rfl, rfl⟩,
    fun n => ⟨rfl, rfl⟩,
    fun n => ⟨rfl, rfl⟩,
    fun n => ⟨rfl, rfl⟩,
    fun n => ⟨rfl, rfl⟩,
    fun n => ⟨rfl, rfl⟩,
    fun n => ⟨rfl, rfl⟩,
    fun secs nanos => ⟨rfl, rfl⟩⟩
  intro l h
  cases h <;> simp [Literal.new, Literal.with_type, Literal.with_language,
    Literal.fromString, Literal.fromIRI, Literal.fromQName, Literal.fromBool,
    Literal.fromF32, Literal.fromF64, Literal.fromI64, Literal.fromI32,
    Literal.fromI16, Literal.fromI8, Literal.fromU64, Literal.fromU32,
    Literal.fromU16, Literal.fromU8, Literal.fromDuration]

/-- Witness for `constructed_literal_consistent`: the mutual-exclusion part
applied to a concrete constructed literal. -/
theorem constructed_literal_consistent_witness :
    ¬((Literal.fromBool true).data_type.isSome ∧ (Literal.fromBool true).language.isSome) :=
  constructed_literal_consistent.1 (Literal.fromBool true) (Constructed.fromBool true)

/-- C8: unescaping the escape applied to the lexical form at `Literal`
construction time yields the original string back, for every string,
including strings containing quote and backslash characters. -/
theorem literal_escape_roundtrip :
    ∀ s : String, unescape (Literal.escape_string s) = s := by
  intro s
  rcases s with ⟨data⟩
  show unescape (Literal.escape_string ⟨data⟩) = ⟨data⟩
  unfold unescape
  rw [escape_string_data]
  rw [unescapeChars_flatMap]

/-- C9: the escaping applied at `Literal` construction is Rust `Debug`
formatting of the input, which escapes more than quote and backslash: a
newline (which contains neither quote nor backslash) becomes the two
characters backslash-n, and a control character becomes a `\u{...}`
sequence, so `Literal::new(s).lexical_form()` differs from `s` for such `s`. -/
theorem escape_is_debug_formatting :
    (¬('"' ∈ "\n".data) ∧ ¬('\\' ∈ "\n".data))
    ∧ (Literal.new "\n").lexical_form = "\\n"
    ∧ (Literal.new "\n").lexical_form ≠ "\n"
    ∧ (Literal.new (String.mk [Char.ofNat 1])).lexical_form
        = String.mk ['\\', 'u', lbrace, '1', rbrace] := by
  have h1 : toHexLE 1 = [1] := by
    rw [toHexLE]
    norm_num
  have h0 : (Char.ofNat 1).toNat = 1 := by decide
  have h2 : escapeDebugChar (Char.ofNat 1) = ['\\', 'u', lbrace, '1', rbrace] := by
    rw [escapeDebugChar, if_neg (by decide), if_neg (by decide), if_neg (by decide),
      if_neg (by decide), if_neg (by decide), if_neg (by decide), if_neg (by decide)]
    rw [hexRender, h0, h1]
    decide
  refine ⟨by decide, by decide, by decide, ?_⟩
  show (Literal.escape_string (String.mk [Char.ofNat 1])) = _
  rw [Literal.escape_string, formatDebug]
  simp only [List.flatMap_cons, List.flatMap_nil, h2]
  decide

/-- C10: `with_language` stores the tag exactly as supplied and equality is
case-sensitive over it, while `Display` lowercases the tag: literals built
from the same lexical form with tags `en` and `EN` are unequal yet render
identically. -/
theorem language_tag_case_sensitivity :
    (Literal.with_language "a string" "EN").language = some "EN"
    ∧ Literal.with_language "a string" "en" ≠ Literal.with_language "a string" "EN"
    ∧ (Literal.with_language "a string" "en").display
        = (Literal.with_language "a string" "EN").display := by
  refine ⟨rfl, by decide, by decide⟩

-- ------------------------------------------------------------------------
-- Claim theorems for flattening
-- ------------------------------------------------------------------------

theorem flattenObjs_append_cons (subject : SubjectNode) (P : IRIRef) (obj : RObj)
    (os2 : ObjList) :
    ∀ (os1 : ObjList) (n : Nat),
      ∃ (pre : List Statement) (m : Nat) (post : List Statement),
        (flattenObjs subject P (ObjList.append os1 (ObjList.cons obj os2)) n).1
          = pre ++ (flattenObj subject P obj m).1 ++ post
  | .nil, n => by
    refine ⟨[], n,
      (flattenObjs subject P os2 (flattenObj subject P obj n).2).1, ?_⟩
    simp [ObjList.append, flattenObjs]
  | .cons o os1, n => by
    obtain ⟨pre, m, post, ih⟩ :=
      flattenObjs_append_cons subject P obj os2 os1 (flattenObj subject P o n).2
    refine ⟨(flattenObj subject P o n).1 ++ pre, m, post, ?_⟩
    simp only [ObjList.append, flattenObjs]
    rw [ih]
    simp

theorem flattenPreds_entry (subject : SubjectNode) (P : IRIRef) (objs : ObjList)
    (ps2 : PredList) :
    ∀ (ps1 : PredList) (n : Nat),
      ∃ (pre : List Statement) (m : Nat) (post : List Statement),
        (flattenPreds subject (PredList.append ps1 (PredList.cons P objs ps2)) n).1
          = pre ++ (flattenObjs subject P objs m).1 ++ post
  | .nil, n => by
    refine ⟨[], n,
      (flattenPreds subject ps2 (flattenObjs subject P objs n).2).1, ?_⟩
    simp [PredList.append, flattenPreds]
  | .cons q qobjs ps1, n => by
    obtain ⟨pre, m, post, ih⟩ :=
      flattenPreds_entry subject P objs ps2 ps1 (flattenObjs subject q qobjs n).2
    refine ⟨(flattenObjs subject q qobjs n).1 ++ pre, m, post, ?_⟩
    simp only [PredList.append, flattenPreds]
    rw [ih]
    simp

/-- C2: for every resource tree containing a 3-element Seq container of
literals under predicate P on subject S, flattening emits for that container
exactly 5 statements, contiguously and in this order: `(S, P, B)` for a
fresh blank node B, then `(B, rdf:type, rdf:Seq)`, then the three member
statements numbered `rdf:_1`, `rdf:_2`, `rdf:_3` in member insertion order. -/
theorem seq_container_flattens_to_five_statements
    (subject : SubjectNode) (ps1 : PredList) (P : IRIRef) (os1 : ObjList)
    (a b c : Literal) (os2 : ObjList) (ps2 : PredList) (n : Nat) :
    ∃ (pre : List Statement) (bl : String) (post : List Statement),
      (flatten (Resource.mk subject (PredList.append ps1 (PredList.cons P
          (ObjList.append os1
            (ObjList.cons (RObj.literals ContainerKind.seq [a, b, c]) os2)) ps2))) n).1
        = pre
          ++ [Statement.mk subject P (ObjectNode.blank bl),
              Statement.mk (SubjectNode.blank bl) rdf.a_type (ObjectNode.named rdf.seq),
              Statement.mk (SubjectNode.blank bl) (rdf.member 0) (ObjectNode.literal a),
              Statement.mk (SubjectNode.blank bl) (rdf.member 1) (ObjectNode.literal b),
              Statement.mk (SubjectNode.blank bl) (rdf.member 2) (ObjectNode.literal c)]
          ++ post := by
  obtain ⟨pre1, m1, post1, h1⟩ := flattenPreds_entry subject P
    (ObjList.append os1 (ObjList.cons (RObj.literals ContainerKind.seq [a, b, c]) os2))
    ps2 ps1 n
  obtain ⟨pre2, m2, post2, h2⟩ := flattenObjs_append_cons subject P
    (RObj.literals ContainerKind.seq [a, b, c]) os2 os1 m1
  have h3 : (flattenObj subject P (RObj.literals ContainerKind.seq [a, b, c]) m2).1
      = [Statement.mk subject P (ObjectNode.blank (blankLabel m2)),
         Statement.mk (SubjectNode.blank (blankLabel m2)) rdf.a_type
           (ObjectNode.named rdf.seq),
         Statement.mk (SubjectNode.blank (blankLabel m2)) (rdf.member 0)
           (ObjectNode.literal a),
         Statement.mk (SubjectNode.blank (blankLabel m2)) (rdf.member 1)
           (ObjectNode.literal b),
         Statement.mk (SubjectNode.blank (blankLabel m2)) (rdf.member 2)
           (ObjectNode.literal c)] := by
    simp [flattenObj, flattenLitMembers, containerClass, SubjectNode.toObject]
  refine ⟨pre1 ++ pre2, blankLabel m2, post2 ++ post1, ?_⟩
  rw [flatten, h1, h2, h3]
  simp

/-- C6: for a plain nested-resource object, the flattened output places all
statements of the nested resource before the linking statement; for a
container object, the link statement is emitted first, followed by the
container's `rdf:type` statement and then the member statements. -/
theorem nested_statements_precede_link_but_container_link_first :
    (∀ (S : SubjectNode) (P : IRIRef) (r : Resource) (n : Nat),
      (flatten (Resource.mk S
          (PredList.cons P (ObjList.cons (RObj.resource r) ObjList.nil) PredList.nil)) n).1
        = (flatten r n).1 ++ [Statement.mk S P r.subject.toObject])
    ∧ (∀ (S : SubjectNode) (P : IRIRef) (kind : ContainerKind)
        (vals : List Literal) (n : Nat),
      (flatten (Resource.mk S
          (PredList.cons P (ObjList.cons (RObj.literals kind vals) ObjList.nil)
            PredList.nil)) n).1
        = Statement.mk S P (ObjectNode.blank (blankLabel n))
          :: Statement.mk (SubjectNode.blank (blankLabel n)) rdf.a_type
              (ObjectNode.named (containerClass kind))
          :: flattenLitMembers (SubjectNode.blank (blankLabel n)) vals 0)
    ∧ (∀ (S : SubjectNode) (P : IRIRef) (kind : ContainerKind)
        (vals : ResList) (n : Nat),
      (flatten (Resource.mk S
          (PredList.cons P (ObjList.cons (RObj.resources kind vals) ObjList.nil)
            PredList.nil)) n).1
        = Statement.mk S P (ObjectNode.blank (blankLabel n))
          :: Statement.mk (SubjectNode.blank (blankLabel n)) rdf.a_type
              (ObjectNode.named (containerClass kind))
          :: (flattenResMembers (SubjectNode.blank (blankLabel n)) vals 0 (n + 1)).1) := by
  refine ⟨?_, ?_, ?_⟩ <;> intros <;>
    simp [flatten, flattenPreds, flattenObjs, flattenObj, SubjectNode.toObject]

-- ------------------------------------------------------------------------
-- Claim theorems for the N-Triples decoder
-- ------------------------------------------------------------------------

theorem string_mk_data (s : String) : String.mk s.data = s := by
  rcases s with ⟨d⟩
  rfl

theorem unescapeIriList_nil : unescapeIriList [] = [] := by
  rw [unescapeIriList]

theorem unescapeIriList_plain (c : Char) (rest : List Char) (h : ¬c = '\\') :
    unescapeIriList (c :: rest) = c :: unescapeIriList rest := by
  rw [unescapeIriList]
  · intro a1 a2 a3 a4 a5 a6 a7 a8 r hc
    exact absurd hc h
  · intro a1 a2 a3 a4 r hc
    exact absurd hc h

theorem unescapeIriList_no_backslash (l : List Char) (h : ∀ c ∈ l, ¬c = '\\') :
    unescapeIriList l = l := by
  induction l with
  | nil => exact unescapeIriList_nil
  | cons c rest ih =>
    rw [unescapeIriList_plain c rest (h c (by simp)),
      ih (fun x hx => h x (by simp [hx]))]

/-- Evaluation helper: an `IRIREF` token whose bracket-stripped text has no
backslash and is not relative decodes to that text. -/
theorem iri_ref_eval (txt s : String)
    (h1 : (txt.data.drop 1).dropLast = s.data)
    (h2 : ∀ c ∈ s.data, ¬c = '\\')
    (h3 : isRelativeReference s = false) :
    NT.iri_ref (Pair.mk Rule.IRIREF txt []) = Except.ok s := by
  have hun : unescapeIri (String.mk s.data) = s := by
    rw [unescapeIri]
    show String.mk (unescapeIriList s.data) = s
    rw [unescapeIriList_no_backslash s.data h2, string_mk_data]
  simp only [NT.iri_ref, Pair.rule, Pair.text]
  rw [if_pos trivial, h1, hun]
  simp only [iriFromStr]
  simp [h3]

/-- C5: a parsed literal with a datatype IRI suffix is stored with
`DataType::Other` wrapping the resolved IRI, whatever that IRI is — the
decoder never normalizes suffix IRIs to built-in variants (and `Other i` is
distinct from every built-in variant, e.g. `String`, even when `i` is the
canonical xsd:string IRI). -/
theorem datatype_suffix_stays_other :
    (∀ (t ts tq lex : String) (ip : Pair) (i : IRIRef),
      NT.iri ip = Except.ok i →
      NT.rdf_literal (Pair.mk Rule.rdfLiteral t
          [Pair.mk Rule.String ts [Pair.mk Rule.STRING_LITERAL_QUOTE tq
            [Pair.mk Rule.QUOTE_INNER lex []]], ip])
        = Except.ok { lexical_form := lex, data_type := some (DataType.Other i), language := none })
    ∧ (∀ i : IRIRef, DataType.Other i ≠ DataType.String) := by
  constructor
  · intro t ts tq lex ip i h
    rcases ip with ⟨ipr, ipt, ipin⟩
    by_cases hr : ipr = Rule.iri
    · subst hr
      simp [NT.rdf_literal, NT.string, Pair.rule, Pair.text, Pair.inner, h,
        NT.facWithDataType]
    · rw [NT.iri] at h
      simp [Pair.rule, hr] at h
  · intro i
    simp

/-- Witness for `datatype_suffix_stays_other`: a literal `"hi"` suffixed with
the xsd:string IRI decodes to `DataType.Other` of that IRI, not to the
built-in `String` variant. -/
theorem datatype_suffix_stays_other_witness :
    NT.rdf_literal (Pair.mk Rule.rdfLiteral ""
      [Pair.mk Rule.String "" [Pair.mk Rule.STRING_LITERAL_QUOTE ""
        [Pair.mk Rule.QUOTE_INNER "hi" []]],
       Pair.mk Rule.iri "" [Pair.mk Rule.IRIREF
         "<http://www.w3.org/2001/XMLSchema#string>" []]])
      = Except.ok { lexical_form := "hi", data_type := some (DataType.Other "http://www.w3.org/2001/XMLSchema#string"), language := none } := by
  have he := iri_ref_eval "<http://www.w3.org/2001/XMLSchema#string>"
    "http://www.w3.org/2001/XMLSchema#string" (by decide) (by decide) (by decide)
  have hi : NT.iri (Pair.mk Rule.iri "" [Pair.mk Rule.IRIREF
      "<http://www.w3.org/2001/XMLSchema#string>" []])
      = Except.ok "http://www.w3.org/2001/XMLSchema#string" := by
    simp [NT.iri, Pair.rule, Pair.inner, he]
  exact datatype_suffix_stays_other.1 "" "" "" "hi" _ _ hi

theorem docLoop_cons_triple (p : Pair) (rest : List Pair) (acc : List Statement)
    (hp : p.rule = Rule.triple) (st : Statement) (hst : NT.triple p = Except.ok st) :
    NT.docLoop (p :: rest) acc = NT.docLoop rest (acc ++ [st]) := by
  simp [NT.docLoop, hp, hst]

theorem docLoop_cons_triple_err (p : Pair) (rest : List Pair) (acc : List Statement)
    (hp : p.rule = Rule.triple) (e : NTError) (hst : NT.triple p = Except.error e) :
    NT.docLoop (p :: rest) acc = Except.error e := by
  simp [NT.docLoop, hp, hst]

theorem docLoop_cons_eoi (p : Pair) (rest : List Pair) (acc : List Statement)
    (hp : p.rule = Rule.EOI) :
    NT.docLoop (p :: rest) acc = NT.docLoop rest acc := by
  simp [NT.docLoop, hp]

theorem docLoop_cons_other (p : Pair) (rest : List Pair) (acc : List Statement)
    (hp1 : ¬p.rule = Rule.triple) (hp2 : ¬p.rule = Rule.EOI) :
    NT.docLoop (p :: rest) acc
      = Except.error (NTError.unexpected "ntriples_doc" p.rule p.text) := by
  cases hr : p.rule <;>
    first
      | exact absurd hr hp1
      | exact absurd hr hp2
      | simp [NT.docLoop, hr]

theorem docLoop_rules_ok : ∀ (inner : List Pair) (acc g : List Statement),
    NT.docLoop inner acc = Except.ok g →
    ∀ q ∈ inner, q.rule = Rule.triple ∨ q.rule = Rule.EOI := by
  intro inner
  induction inner with
  | nil => intro acc g _ q hq; simp at hq
  | cons p rest ih =>
    intro acc g h q hq
    by_cases hp1 : p.rule = Rule.triple
    · cases hst : NT.triple p with
      | ok st =>
        rw [docLoop_cons_triple p rest acc hp1 st hst] at h
        rcases List.mem_cons.mp hq with rfl | hq2
        · exact Or.inl hp1
        · exact ih _ _ h q hq2
      | error e =>
        rw [docLoop_cons_triple_err p rest acc hp1 e hst] at h
        exact absurd h (by simp)
    · by_cases hp2 : p.rule = Rule.EOI
      · rw [docLoop_cons_eoi p rest acc hp2] at h
        rcases List.mem_cons.mp hq with rfl | hq2
        · exact Or.inr hp2
        · exact ih _ _ h q hq2
      · rw [docLoop_cons_other p rest acc hp1 hp2] at h
        exact absurd h (by simp)

theorem docLoop_eq_of_wf : ∀ (inner : List Pair) (acc : List Statement),
    (∀ q ∈ inner, q.rule = Rule.triple ∨ q.rule = Rule.EOI) →
    NT.docLoop inner acc
      = Except.map (fun sts => acc ++ sts)
          (NT.decodeTriples (inner.filter fun q => q.rule == Rule.triple)) := by
  intro inner
  induction inner with
  | nil => intro acc _; simp [NT.docLoop, NT.decodeTriples, Except.map]
  | cons p rest ih =>
    intro acc hw
    rcases hw p (by simp) with hp | hp
    · cases hst : NT.triple p with
      | ok st =>
        rw [docLoop_cons_triple p rest acc hp st hst,
          ih _ (fun q hq => hw q (by simp [hq])),
          List.filter_cons_of_pos (by simp [hp])]
        cases hmm : NT.decodeTriples (rest.filter fun q => q.rule == Rule.triple) with
        | ok sts => simp [NT.decodeTriples, hst, hmm, Except.map]
        | error e => simp [NT.decodeTriples, hst, hmm, Except.map]
      | error e =>
        rw [docLoop_cons_triple_err p rest acc hp e hst,
          List.filter_cons_of_pos (by simp [hp])]
        simp [NT.decodeTriples, hst, Except.map]
    · rw [docLoop_cons_eoi p rest acc hp, ih _ (fun q hq => hw q (by simp [hq])),
        List.filter_cons_of_neg (by simp [hp])]

theorem docLoop_error_first (q : Pair) (post : List Pair) (e : NTError)
    (hq : q.rule = Rule.triple) (he : NT.triple q = Except.error e) :
    ∀ (pre : List Pair) (acc : List Statement),
    (∀ x ∈ pre, x.rule = Rule.EOI
      ∨ (x.rule = Rule.triple ∧ ∃ st, NT.triple x = Except.ok st)) →
    NT.docLoop (pre ++ q :: post) acc = Except.error e := by
  intro pre
  induction pre with
  | nil => intro acc _; exact docLoop_cons_triple_err q post acc hq e he
  | cons x pre ih =>
    intro acc hpre
    rcases hpre x (by simp) with hx | ⟨hx, st, hst⟩
    · rw [List.cons_append, docLoop_cons_eoi x _ acc hx]
      exact ih acc (fun y hy => hpre y (by simp [hy]))
    · rw [List.cons_append, docLoop_cons_triple x _ acc hx st hst]
      exact ih _ (fun y hy => hpre y (by simp [hy]))

theorem docLoop_unexpected_first (q : Pair) (post : List Pair)
    (hq1 : ¬q.rule = Rule.triple) (hq2 : ¬q.rule = Rule.EOI) :
    ∀ (pre : List Pair) (acc : List Statement),
    (∀ x ∈ pre, x.rule = Rule.EOI
      ∨ (x.rule = Rule.triple ∧ ∃ st, NT.triple x = Except.ok st)) →
    NT.docLoop (pre ++ q :: post) acc
      = Except.error (NTError.unexpected "ntriples_doc" q.rule q.text) := by
  intro pre
  induction pre with
  | nil => intro acc _; exact docLoop_cons_other q post acc hq1 hq2
  | cons x pre ih =>
    intro acc hpre
    rcases hpre x (by simp) with hx | ⟨hx, st, hst⟩
    · rw [List.cons_append, docLoop_cons_eoi x _ acc hx]
      exact ih acc (fun y hy => hpre y (by simp [hy]))
    · rw [List.cons_append, docLoop_cons_triple x _ acc hx st hst]
      exact ih _ (fun y hy => hpre y (by simp [hy]))

/-- C3: a line-triple document decodes to Ok with a freshly constructed graph
holding exactly the decoded statements in file order iff every node is a
triple (or end-of-input) and every triple decodes; the first malformed
triple's error — or the first unexpected production — is returned for the
whole parse, so no partial graph reaches the caller. -/
theorem parse_ok_iff_no_malformed_input :
    (∀ (t : String) (inner : List Pair) (g : List Statement),
      NT.ntriples_doc (Pair.mk Rule.ntriplesDoc t inner) = Except.ok g
        ↔ ((∀ q ∈ inner, q.rule = Rule.triple ∨ q.rule = Rule.EOI)
            ∧ NT.decodeTriples (inner.filter fun q => q.rule == Rule.triple)
                = Except.ok g))
    ∧ (∀ (t : String) (pre : List Pair) (q : Pair) (post : List Pair) (e : NTError),
        (∀ x ∈ pre, x.rule = Rule.EOI
          ∨ (x.rule = Rule.triple ∧ ∃ st, NT.triple x = Except.ok st)) →
        q.rule = Rule.triple → NT.triple q = Except.error e →
        NT.ntriples_doc (Pair.mk Rule.ntriplesDoc t (pre ++ q :: post))
          = Except.error e)
    ∧ (∀ (t : String) (pre : List Pair) (q : Pair) (post : List Pair),
        (∀ x ∈ pre, x.rule = Rule.EOI
          ∨ (x.rule = Rule.triple ∧ ∃ st, NT.triple x = Except.ok st)) →
        ¬q.rule = Rule.triple → ¬q.rule = Rule.EOI →
        NT.ntriples_doc (Pair.mk Rule.ntriplesDoc t (pre ++ q :: post))
          = Except.error (NTError.unexpected "ntriples_doc" q.rule q.text)) := by
  have hdoc : ∀ (t : String) (inner : List Pair),
      NT.ntriples_doc (Pair.mk Rule.ntriplesDoc t inner) = NT.docLoop inner [] := by
    intro t inner
    simp [NT.ntriples_doc, Pair.rule, Pair.inner]
  refine ⟨?_, ?_, ?_⟩
  · intro t inner g
    rw [hdoc]
    constructor
    · intro h
      have hr := docLoop_rules_ok inner [] g h
      refine ⟨hr, ?_⟩
      rw [docLoop_eq_of_wf inner [] hr] at h
      cases hmm : NT.decodeTriples (inner.filter fun q => q.rule == Rule.triple) with
      | ok sts =>
        rw [hmm] at h
        simp [Except.map] at h
        rw [h]
      | error e =>
        rw [hmm] at h
        simp [Except.map] at h
    · rintro ⟨hr, hm⟩
      rw [docLoop_eq_of_wf inner [] hr, hm]
      simp [Except.map]
  · intro t pre q post e hpre hq he
    rw [hdoc]
    exact docLoop_error_first q post e hq he pre [] hpre
  · intro t pre q post hpre hq1 hq2
    rw [hdoc]
    exact docLoop_unexpected_first q post hq1 hq2 pre [] hpre

/-- Witness for `parse_ok_iff_no_malformed_input`: a one-triple document with
an end-of-input marker decodes to the one-statement graph. -/
theorem parse_ok_iff_no_malformed_input_witness :
    NT.ntriples_doc (Pair.mk Rule.ntriplesDoc ""
      [Pair.mk Rule.triple ""
        [Pair.mk Rule.subject "" [Pair.mk Rule.IRIREF "<http://a/s>" []],
         Pair.mk Rule.predicate "" [Pair.mk Rule.IRIREF "<http://a/p>" []],
         Pair.mk Rule.object "" [Pair.mk Rule.literal "" [Pair.mk Rule.rdfLiteral ""
           [Pair.mk Rule.String "" [Pair.mk Rule.STRING_LITERAL_QUOTE ""
             [Pair.mk Rule.QUOTE_INNER "hi" []]]]]]],
       Pair.mk Rule.EOI "" []])
      = Except.ok [Statement.mk (SubjectNode.named "http://a/s") "http://a/p"
          (ObjectNode.literal { lexical_form := "hi", data_type := none, language := none })] := by
  have hs := iri_ref_eval "<http://a/s>" "http://a/s" (by decide) (by decide) (by decide)
  have hp := iri_ref_eval "<http://a/p>" "http://a/p" (by decide) (by decide) (by decide)
  have ht : NT.triple (Pair.mk Rule.triple ""
      [Pair.mk Rule.subject "" [Pair.mk Rule.IRIREF "<http://a/s>" []],
       Pair.mk Rule.predicate "" [Pair.mk Rule.IRIREF "<http://a/p>" []],
       Pair.mk Rule.object "" [Pair.mk Rule.literal "" [Pair.mk Rule.rdfLiteral ""
         [Pair.mk Rule.String "" [Pair.mk Rule.STRING_LITERAL_QUOTE ""
           [Pair.mk Rule.QUOTE_INNER "hi" []]]]]]])
      = Except.ok (Statement.mk (SubjectNode.named "http://a/s") "http://a/p"
          (ObjectNode.literal { lexical_form := "hi", data_type := none, language := none })) := by
    simp [NT.triple, NT.subject, NT.predicate, NT.object, NT.literal, NT.rdf_literal,
      NT.string, NT.facLiteral, Pair.rule, Pair.text, Pair.inner, hs, hp]
  apply ((parse_ok_iff_no_malformed_input.1 "" _ _).mpr)
  refine ⟨?_, ?_⟩
  · intro q hq
    rcases List.mem_cons.mp hq with rfl | hq2
    · exact Or.inl rfl
    · rcases List.mem_cons.mp hq2 with rfl | hq3
      · exact Or.inr rfl
      · exact absurd hq3 (by simp)
  · rw [show (List.filter (fun q => q.rule == Rule.triple)
        [Pair.mk Rule.triple ""
          [Pair.mk Rule.subject "" [Pair.mk Rule.IRIREF "<http://a/s>" []],
           Pair.mk Rule.predicate "" [Pair.mk Rule.IRIREF "<http://a/p>" []],
           Pair.mk Rule.object "" [Pair.mk Rule.literal "" [Pair.mk Rule.rdfLiteral ""
             [Pair.mk Rule.String "" [Pair.mk Rule.STRING_LITERAL_QUOTE ""
               [Pair.mk Rule.QUOTE_INNER "hi" []]]]]]],
         Pair.mk Rule.EOI "" []])
      = [Pair.mk Rule.triple ""
          [Pair.mk Rule.subject "" [Pair.mk Rule.IRIREF "<http://a/s>" []],
           Pair.mk Rule.predicate "" [Pair.mk Rule.IRIREF "<http://a/p>" []],
           Pair.mk Rule.object "" [Pair.mk Rule.literal "" [Pair.mk Rule.rdfLiteral ""
             [Pair.mk Rule.String "" [Pair.mk Rule.STRING_LITERAL_QUOTE ""
               [Pair.mk Rule.QUOTE_INNER "hi" []]]]]]]] from rfl]
    simp [NT.decodeTriples, ht]

-- ------------------------------------------------------------------------
-- Claim theorems for the Turtle writer
-- ------------------------------------------------------------------------

theorem writeLoop1_spec (wr : TurtleWriter) (g : Graph) (fuel : Nat) :
    ∀ (subjects : List SubjectNode) (toW written : List SubjectNode) (out : String),
      writeLoop1 wr g fuel subjects (toW, written, out)
        = (toW ++ subjects.filter (fun s => s.isBlank),
           written ++ (subjects.filter (fun s => !s.isBlank)).flatMap
             (fun s => (write_sub_graph wr g fuel s { depth := 0 }).2),
           out ++ concatStrings (subjects.map (fun s =>
             if s.isBlank then "\n"
             else (write_sub_graph wr g fuel s { depth := 0 }).1 ++ "\n"))) := by
  intro subjects
  induction subjects with
  | nil =>
    intro toW written out
    simp [writeLoop1, concatStrings, String.append_empty]
  | cons s rest ih =>
    intro toW written out
    by_cases hb : s.isBlank
    · rw [writeLoop1]
      rw [if_pos hb, ih]
      simp [hb, concatStrings, String.append_assoc]
    · rw [writeLoop1]
      rw [if_neg hb, ih]
      simp [hb, concatStrings, String.append_assoc]

theorem renderObject_records (wr : TurtleWriter) (g : Graph) (fuel : Nat)
    (ind : Indenter) (o : ObjectNode)
    (hn : wr.options.nest_blank_nodes = true) (hb : o.isBlank = true) :
    o.asSubject ∈ (renderObject wr g fuel ind o).2 := by
  unfold renderObject
  simp [hb, hn]

theorem objLoop_records (wr : TurtleWriter) (g : Graph) (fuel : Nat)
    (ind : Indenter) :
    ∀ (objects : List ObjectNode) (o : ObjectNode), o ∈ objects →
      wr.options.nest_blank_nodes = true → o.isBlank = true →
      o.asSubject ∈ (objLoop wr g fuel ind objects).2 := by
  intro objects
  induction objects with
  | nil => intro o h _ _; simp at h
  | cons x rest ih =>
    intro o ho hn hb
    rcases List.mem_cons.mp ho with rfl | ho2
    · simp only [objLoop]
      exact List.mem_append_left _ (renderObject_records wr g fuel ind o hn hb)
    · simp only [objLoop]
      exact List.mem_append_right _ (ih o ho2 hn hb)

theorem predLoop_records (wr : TurtleWriter) (g : Graph) (fuel : Nat)
    (subject : SubjectNode) :
    ∀ (ps : List IRIRef) (ind : Indenter) (p : IRIRef), p ∈ ps →
      ∀ (o : ObjectNode), o ∈ g.objectsFor subject p →
      wr.options.nest_blank_nodes = true → o.isBlank = true →
      o.asSubject ∈ (predLoop wr g fuel subject ind ps).2 := by
  intro ps
  induction ps with
  | nil => intro ind p h; simp at h
  | cons q rest ih =>
    intro ind p hp o ho hn hb
    rcases List.mem_cons.mp hp with rfl | hp2
    · simp only [predLoop]
      exact List.mem_append_left _
        (objLoop_records wr g fuel _ (g.objectsFor subject p) o ho hn hb)
    · simp only [predLoop]
      exact List.mem_append_right _ (ih _ p hp2 o ho hn hb)

/-- C7: in the writer's output every IRI-named subject's block is written in
the first pass — so before any top-level blank-node block, which all come
after it — a blank node rendered as a nested block inside an IRI-named
subject's block is recorded among the nested-written blanks, and every
recorded blank is excluded from the top-level blank pass. -/
theorem turtle_named_blocks_first_nested_blanks_excluded :
    (∀ (wr : TurtleWriter) (g : Graph) (fuel : Nat),
      write wr g fuel
        = writeHeader wr g
          ++ concatStrings (g.subjects.map (fun s =>
              if s.isBlank then "\n"
              else (write_sub_graph wr g fuel s { depth := 0 }).1 ++ "\n"))
          ++ concatStrings ((topLevelBlanks wr g fuel).map
              (fun s => (write_sub_graph wr g fuel s { depth := 0 }).1)))
    ∧ (∀ (wr : TurtleWriter) (g : Graph) (fuel : Nat) (b : SubjectNode),
        b ∈ nestedWritten wr g fuel → b ∉ topLevelBlanks wr g fuel)
    ∧ (∀ (wr : TurtleWriter) (g : Graph) (f : Nat) (s : SubjectNode)
        (ind : Indenter) (p : IRIRef) (o : ObjectNode),
        wr.options.nest_blank_nodes = true →
        p ∈ g.predicatesFor s → o ∈ g.objectsFor s p → o.isBlank = true →
        o.asSubject ∈ (write_sub_graph wr g (f + 1) s ind).2) := by
  refine ⟨?_, ?_, ?_⟩
  · intro wr g fuel
    simp only [write, topLevelBlanks, nestedWritten]
    rw [writeLoop1_spec wr g fuel g.subjects [] [] ""]
    simp only [List.nil_append, String.empty_append]
  · intro wr g fuel b hmem hmem2
    have h2 := (List.mem_filter.mp hmem2).2
    simp at h2
    exact h2 hmem
  · intro wr g f s ind p o hn hp ho hb
    simp only [write_sub_graph]
    exact predLoop_records wr g f s (g.predicatesFor s) ind.indent p hp o ho hn hb

/-- Witness for `turtle_named_blocks_first_nested_blanks_excluded`: in the
concrete graph, the blank `b1` nested under the IRI-named subject is
recorded, and is therefore not re-rendered by the top-level blank pass. -/
theorem turtle_named_blocks_first_nested_blanks_excluded_witness :
    SubjectNode.blank "b1"
      ∈ (write_sub_graph wr0 g0 2 (SubjectNode.named "http://a/s") { depth := 0 }).2
    ∧ SubjectNode.blank "b1" ∉ topLevelBlanks wr0 g0 2 := by
  have h1 := turtle_named_blocks_first_nested_blanks_excluded.2.2 wr0 g0 1
    (SubjectNode.named "http://a/s") { depth := 0 } "http://a/p"
    (ObjectNode.blank "b1") rfl (by simp [g0]) (by simp [g0]) rfl
  have h1' : SubjectNode.blank "b1"
      ∈ (write_sub_graph wr0 g0 2 (SubjectNode.named "http://a/s") { depth := 0 }).2 := by
    simpa [ObjectNode.asSubject] using h1
  refine ⟨h1', ?_⟩
  apply turtle_named_blocks_first_nested_blanks_excluded.2.1 wr0 g0 2
  simp only [nestedWritten, g0, SubjectNode.isBlank, List.filter, List.flatMap]
  simpa using h1'

end RdfTk
